import Mathlib

/-!
Verification of the card schema and validation pass of the `ai-adaptive-card`
repository (`src/llm/models.py`, `src/llm/llm_client.py`, `src/llm/main.py`).

The repository defines a recursive discriminated-union schema of "adaptive
card" nodes as pydantic (v2) models and validates untrusted JSON against it
with `CardNode.model_validate`.  This file shallowly embeds that schema and
the validation semantics the pydantic declarations induce, and proves the
structural properties of the validator.
-/

namespace AdaptiveCard

/-- JSON values, as produced by `json.loads` in `llm_client.py`.  Python
dictionaries are embedded as association lists of string keys (keys are
unique in dictionaries coming from `json.loads`, and only the first binding
of a key is consulted).  JSON numbers (integers and floats alike) are
embedded as rationals. -/
inductive Json where
  | null
  | bool (b : Bool)
  | num (v : ℚ)
  | str (s : String)
  | arr (elems : List Json)
  | obj (fields : List (String × Json))

-- Size measure on JSON values, used for termination of the recursive validator.
mutual

def Json.jsize : Json → Nat
  | .null => 1
  | .bool _ => 1
  | .num _ => 1
  | .str _ => 1
  | .arr elems => 1 + Json.jsizeList elems
  | .obj fields => 1 + Json.jsizeFields fields

def Json.jsizeList : List Json → Nat
  | [] => 0
  | j :: js => Json.jsize j + Json.jsizeList js + 1

def Json.jsizeFields : List (String × Json) → Nat
  | [] => 0
  | (_, v) :: fs => Json.jsize v + Json.jsizeFields fs + 1

end

theorem Json.jsize_arr (elems : List Json) :
    Json.jsize (.arr elems) = 1 + Json.jsizeList elems := by
  rw [Json.jsize.eq_def]

theorem Json.jsize_obj (fields : List (String × Json)) :
    Json.jsize (.obj fields) = 1 + Json.jsizeFields fields := by
  rw [Json.jsize.eq_def]

theorem Json.jsizeList_cons (j : Json) (js : List Json) :
    Json.jsizeList (j :: js) = Json.jsize j + Json.jsizeList js + 1 := by
  rw [Json.jsizeList.eq_def]

theorem Json.jsizeFields_cons (k : String) (v : Json)
    (fs : List (String × Json)) :
    Json.jsizeFields ((k, v) :: fs) = Json.jsize v + Json.jsizeFields fs + 1 := by
  rw [Json.jsizeFields.eq_def]

/-- Key lookup in a JSON object, the embedding of Python dictionary access. -/
def Json.lookup : List (String × Json) → String → Option Json
  | [], _ => none
  | (k, v) :: rest, key => if k = key then some v else Json.lookup rest key

theorem Json.jsize_of_lookup {fs : List (String × Json)} {key : String} {v : Json}
    (h : Json.lookup fs key = some v) : Json.jsize v ≤ Json.jsizeFields fs := by
  induction fs with
  | nil => simp [Json.lookup] at h
  | cons p rest ih =>
    obtain ⟨k, w⟩ := p
    rw [Json.lookup] at h
    rw [Json.jsizeFields_cons]
    split at h
    · cases h
      omega
    · have := ih h
      omega

/-! ## The validated card document model

The Lean counterparts of the pydantic models in `src/llm/models.py`.  The
eight node classes (`CardNode`, `TitleNode`, `SubtitleNode`, `TextNode`,
`BulletsNode`, `TableNode`, `ChartNode`, `ResizableLayoutNode`) become the
constructors of one inductive `Node`, which is exactly the discriminated
union `Node` of the source; `Panel` and `ChartSeries` keep their names. -/

/-- Embeds `Literal["bar", "line"]`, the `chartType` field of `ChartNode`. -/
inductive ChartType where
  | bar
  | line
deriving DecidableEq

/-- Embeds `Literal["horizontal", "vertical"]`, the `direction` field of
`ResizableLayoutNode`. -/
inductive Direction where
  | horizontal
  | vertical
deriving DecidableEq

/-- Embeds `ChartSeries` from `models.py`: `name: str`, `values: List[float]`. -/
structure ChartSeries where
  name : String
  values : List ℚ
deriving DecidableEq

mutual

/-- The discriminated union `Node` of `models.py`: each constructor is one
of the node model classes, carrying that class's fields beyond `kind`. -/
inductive Node where
  | card (children : List Node)
  | title (text : String)
  | subtitle (text : String)
  | text (text : String)
  | bullets (items : List String)
  | table (columns : List String) (rows : List (List String))
  | chart (chartType : ChartType) (categories : List String)
      (series : List ChartSeries)
  | resizableLayout (direction : Direction) (panels : List Panel)

/-- Embeds `Panel` from `models.py`: `defaultSize: Optional[float]`,
`minSize: Optional[float]`, `children: List[NonLayoutNode]`. -/
inductive Panel where
  | mk (defaultSize : Option ℚ) (minSize : Option ℚ) (children : List Node)

end

def Panel.defaultSize : Panel → Option ℚ
  | ⟨d, _, _⟩ => d

def Panel.minSize : Panel → Option ℚ
  | ⟨_, m, _⟩ => m

def Panel.children : Panel → List Node
  | ⟨_, _, c⟩ => c

/-- Holds exactly on the `resizableLayout` variant; used to state that
panel children exclude layout nodes. -/
def Node.isLayout : Node → Bool
  | .resizableLayout _ _ => true
  | _ => false

/-! ## Primitive field validation

pydantic v2 validates each declared field against its annotation, in lax
(non-strict) mode, the default used by `CardNode.model_validate`. -/

/-- A `str` field accepts exactly JSON strings (pydantic does not coerce
numbers or booleans to `str`). -/
def validateStr : Json → Option String
  | .str s => some s
  | _ => none

/-- Numeric value of a list of decimal digit characters. -/
def digitsVal (cs : List Char) : Nat :=
  cs.foldl (fun a c => a * 10 + (c.toNat - 48)) 0

/-- Strips leading and trailing whitespace, as pydantic does before
coercing a string to a number. -/
def trimWs (cs : List Char) : List Char :=
  ((cs.dropWhile Char.isWhitespace).reverse.dropWhile Char.isWhitespace).reverse

/-- Parses the exponent part of a scientific-notation float literal: an
optional sign followed by at least one digit; `true` marks a negative
exponent. -/
def parseExpPart : List Char → Option (Bool × Nat)
  | '+' :: ds =>
    if !ds.isEmpty && ds.all (·.isDigit) then some (false, digitsVal ds)
    else none
  | '-' :: ds =>
    if !ds.isEmpty && ds.all (·.isDigit) then some (true, digitsVal ds)
    else none
  | ds =>
    if !ds.isEmpty && ds.all (·.isDigit) then some (false, digitsVal ds)
    else none

/-- Scales a mantissa by a signed power of ten. -/
def applyExp (q : ℚ) : Bool × Nat → ℚ
  | (false, e) => q * (10 : ℚ) ^ e
  | (true, e) => q / (10 : ℚ) ^ e

/-- Parses an unsigned float literal: digits with an optional fractional
part and an optional decimal exponent (`"10"`, `"3.5"`, `".5"`, `"1."`,
`"1e5"`, `"1.5E-2"`), the grammar pydantic-core's string-to-float
conversion accepts. -/
def parseFloatBody (cs : List Char) : Option ℚ :=
  let ip := cs.takeWhile (·.isDigit)
  let rest1 := cs.dropWhile (·.isDigit)
  match rest1 with
  | [] => if ip.isEmpty then none else some (digitsVal ip)
  | '.' :: rest2 =>
    let fp := rest2.takeWhile (·.isDigit)
    let rest3 := rest2.dropWhile (·.isDigit)
    if ip.isEmpty && fp.isEmpty then none
    else
      let base : ℚ := (digitsVal ip : ℚ) + (digitsVal fp : ℚ) / (10 : ℚ) ^ fp.length
      match rest3 with
      | [] => some base
      | c :: rest4 =>
        if c == 'e' || c == 'E' then (parseExpPart rest4).map (applyExp base)
        else none
  | c :: rest4 =>
    if (c == 'e' || c == 'E') && !ip.isEmpty then
      (parseExpPart rest4).map (applyExp (digitsVal ip : ℚ))
    else none

/-- Models pydantic v2's lax coercion of strings to `float` for finite
values: surrounding whitespace is trimmed and an optional sign precedes a
decimal or scientific-notation literal, the grammar pydantic-core's
string-to-float conversion accepts.  Values are idealized as exact
rationals, consistently with the rest of the embedding (no binary64
rounding or overflow).  The non-finite spellings `inf`, `infinity` and
`nan`, which pydantic also accepts (`allow_inf_nan` defaults to true),
have no rational counterpart and are recognized separately by
`isInfNanStr`. -/
def parsePydFloat (s : String) : Option ℚ :=
  match trimWs s.toList with
  | '-' :: cs => (parseFloatBody cs).map (fun q => -q)
  | '+' :: cs => parseFloatBody cs
  | cs => parseFloatBody cs

/-- Recognizes the optionally signed, case-insensitive spellings of the
non-finite floats (`inf`, `infinity`, `nan`) that pydantic's lax mode
coerces to non-finite float values. -/
def isInfNanStr (s : String) : Bool :=
  let body :=
    match trimWs s.toList with
    | '+' :: rest => rest
    | '-' :: rest => rest
    | rest => rest
  let low := body.map Char.toLower
  low == ['i', 'n', 'f'] ||
    low == ['i', 'n', 'f', 'i', 'n', 'i', 't', 'y'] ||
    low == ['n', 'a', 'n']

/-- A `float` field accepts JSON numbers (integers and floats alike) and, in
lax mode, numeric-looking strings; everything else (booleans, `null`,
arrays, objects, non-numeric strings) is rejected. -/
def validateFloat : Json → Option ℚ
  | .num v => some v
  | .str s => parsePydFloat s
  | _ => none

/-- An `Optional[float]` field: an absent key or an explicit `null` yields
`None`; otherwise the value must validate as a `float`. -/
def validateOptFloat : Option Json → Option (Option ℚ)
  | none => some none
  | some .null => some none
  | some v => (validateFloat v).map some

def validateStrList : List Json → Option (List String)
  | [] => some []
  | j :: js =>
    match validateStr j, validateStrList js with
    | some s, some ss => some (s :: ss)
    | _, _ => none

/-- A `List[str]` field: a JSON array whose elements are all strings. -/
def validateStringArray : Json → Option (List String)
  | .arr elems => validateStrList elems
  | _ => none

def validateRowList : List Json → Option (List (List String))
  | [] => some []
  | j :: js =>
    match validateStringArray j, validateRowList js with
    | some r, some rs => some (r :: rs)
    | _, _ => none

/-- The `rows: List[List[str]]` field of `TableNode`. -/
def validateRowArray : Json → Option (List (List String))
  | .arr elems => validateRowList elems
  | _ => none

def validateFloatList : List Json → Option (List ℚ)
  | [] => some []
  | j :: js =>
    match validateFloat j, validateFloatList js with
    | some v, some vs => some (v :: vs)
    | _, _ => none

/-- The `values: List[float]` field of `ChartSeries`. -/
def validateFloatArray : Json → Option (List ℚ)
  | .arr elems => validateFloatList elems
  | _ => none

/-- Embeds `extra = "forbid"`: every key of the object must be one of the model's
declared field names. -/
def checkKeys (fields : List (String × Json)) (allowed : List String) : Bool :=
  fields.all fun p => allowed.contains p.1

/-- Embeds `chartType: Literal["bar", "line"]`. -/
def validateChartType : Json → Option ChartType
  | .str s => if s = "bar" then some .bar else if s = "line" then some .line else none
  | _ => none

/-- Embeds `direction: Literal["horizontal", "vertical"]`. -/
def validateDirection : Json → Option Direction
  | .str s =>
    if s = "horizontal" then some .horizontal
    else if s = "vertical" then some .vertical
    else none
  | _ => none

/-! ## Per-variant validation

One function per non-recursive node model, validating the declared fields of
an object already dispatched on its `kind` discriminator. -/

/-- Embeds `TitleNode`: `kind: Literal["title"]`, `text: str`, extra forbidden. -/
def validateTitleFields (fields : List (String × Json)) : Option Node :=
  if checkKeys fields ["kind", "text"] then
    match Json.lookup fields "text" with
    | some (.str t) => some (.title t)
    | _ => none
  else none

/-- Embeds `SubtitleNode`: `kind: Literal["subtitle"]`, `text: str`. -/
def validateSubtitleFields (fields : List (String × Json)) : Option Node :=
  if checkKeys fields ["kind", "text"] then
    match Json.lookup fields "text" with
    | some (.str t) => some (.subtitle t)
    | _ => none
  else none

/-- Embeds `TextNode`: `kind: Literal["text"]`, `text: str`. -/
def validateTextFields (fields : List (String × Json)) : Option Node :=
  if checkKeys fields ["kind", "text"] then
    match Json.lookup fields "text" with
    | some (.str t) => some (.text t)
    | _ => none
  else none

/-- Embeds `BulletsNode`: `kind: Literal["bullets"]`, `items: List[str]`. -/
def validateBulletsFields (fields : List (String × Json)) : Option Node :=
  if checkKeys fields ["kind", "items"] then
    match Json.lookup fields "items" with
    | some v => (validateStringArray v).map Node.bullets
    | none => none
  else none

/-- Embeds `TableNode`: `kind: Literal["table"]`, `columns: List[str]`,
`rows: List[List[str]]`.  Note that `TableNode` in `models.py` declares no
cross-field validator: row lengths are not compared with `columns`. -/
def validateTableFields (fields : List (String × Json)) : Option Node :=
  if checkKeys fields ["kind", "columns", "rows"] then
    match Json.lookup fields "columns", Json.lookup fields "rows" with
    | some c, some r =>
      match validateStringArray c, validateRowArray r with
      | some cols, some rows => some (.table cols rows)
      | _, _ => none
    | _, _ => none
  else none

/-- Embeds the `ChartSeries` model: `name: str`, `values: List[float]`, extra forbidden. -/
def validateSeries (j : Json) : Option ChartSeries :=
  match j with
  | .obj fields =>
    if checkKeys fields ["name", "values"] then
      match Json.lookup fields "name", Json.lookup fields "values" with
      | some (.str n), some v => (validateFloatArray v).map fun vs => ⟨n, vs⟩
      | _, _ => none
    else none
  | _ => none

def validateSeriesList : List Json → Option (List ChartSeries)
  | [] => some []
  | j :: js =>
    match validateSeries j, validateSeriesList js with
    | some s, some ss => some (s :: ss)
    | _, _ => none

/-- The `series: List[ChartSeries]` field of `ChartNode`. -/
def validateSeriesArray : Json → Option (List ChartSeries)
  | .arr elems => validateSeriesList elems
  | _ => none

/-- The `@model_validator(mode="after")` of `ChartNode`
(`ChartNode.validate_series_lengths`): after structural validation, the
chart is rejected when `categories` is empty while `series` is not, or when
some series' `values` length differs from the number of categories. -/
def validate_series_lengths (categories : List String)
    (series : List ChartSeries) : Bool :=
  !(categories.isEmpty && !series.isEmpty) &&
    series.all fun s => s.values.length == categories.length

/-- Embeds `ChartNode`: `kind: Literal["chart"]`, `chartType`, `categories`,
`series`, followed by the after-validator `validate_series_lengths`. -/
def validateChartFields (fields : List (String × Json)) : Option Node :=
  if checkKeys fields ["kind", "chartType", "categories", "series"] then
    match Json.lookup fields "chartType", Json.lookup fields "categories",
        Json.lookup fields "series" with
    | some ct, some cats, some ser =>
      match validateChartType ct, validateStringArray cats,
          validateSeriesArray ser with
      | some c, some cs, some ss =>
        if validate_series_lengths cs ss then some (.chart c cs ss) else none
      | _, _, _ => none
    | _, _, _ => none
  else none

/-! ## The recursive validator

The embedding of pydantic's validation of the recursive discriminated
unions `Node` (discriminator `kind`) and `NonLayoutNode` (the same union
without the `resizableLayout` tag), of `CardNode.children : List[Node]`,
of `Panel.children : List[NonLayoutNode]` and of
`ResizableLayoutNode.panels : List[Panel]`.  `allowLayout` selects between
the `Node` union (`true`) and the `NonLayoutNode` union (`false`): the two
unions share every variant except `resizableLayout`, and a `card` child list
is always validated against `Node` while a panel child list is validated
against `NonLayoutNode`. -/

mutual

def validateNode (allowLayout : Bool) (j : Json) : Option Node :=
  match j with
  | .obj fields =>
    match Json.lookup fields "kind" with
    | some (.str k) =>
      if k = "card" then validateCardFields fields
      else if k = "title" then validateTitleFields fields
      else if k = "subtitle" then validateSubtitleFields fields
      else if k = "text" then validateTextFields fields
      else if k = "bullets" then validateBulletsFields fields
      else if k = "table" then validateTableFields fields
      else if k = "chart" then validateChartFields fields
      else if k = "resizableLayout" then
        if allowLayout then validateLayoutFields fields else none
      else none
    | _ => none
  | _ => none
termination_by Json.jsize j
decreasing_by
  all_goals
    rw [Json.jsize_obj]
    omega

def validateCardFields (fields : List (String × Json)) : Option Node :=
  if checkKeys fields ["kind", "children"] then
    match h : Json.lookup fields "children" with
    | some (.arr elems) =>
      match validateNodeList true elems with
      | some ns => some (.card ns)
      | none => none
    | _ => none
  else none
termination_by Json.jsizeFields fields
decreasing_by
  all_goals
    have hle := Json.jsize_of_lookup h
    rw [Json.jsize_arr] at hle
    omega

def validateLayoutFields (fields : List (String × Json)) : Option Node :=
  if checkKeys fields ["kind", "direction", "panels"] then
    match Json.lookup fields "direction" with
    | some d =>
      match validateDirection d with
      | some dir =>
        match h : Json.lookup fields "panels" with
        | some (.arr elems) =>
          match validatePanelList elems with
          | some ps => some (.resizableLayout dir ps)
          | none => none
        | _ => none
      | none => none
    | none => none
  else none
termination_by Json.jsizeFields fields
decreasing_by
  all_goals
    have hle := Json.jsize_of_lookup h
    rw [Json.jsize_arr] at hle
    omega

def validateNodeList (allowLayout : Bool) (js : List Json) : Option (List Node) :=
  match js with
  | [] => some []
  | j :: rest =>
    match validateNode allowLayout j, validateNodeList allowLayout rest with
    | some n, some ns => some (n :: ns)
    | _, _ => none
termination_by Json.jsizeList js
decreasing_by
  all_goals
    rw [Json.jsizeList_cons]
    omega

def validatePanel (j : Json) : Option Panel :=
  match j with
  | .obj fields =>
    if checkKeys fields ["defaultSize", "minSize", "children"] then
      match validateOptFloat (Json.lookup fields "defaultSize"),
          validateOptFloat (Json.lookup fields "minSize") with
      | some d, some m =>
        match h : Json.lookup fields "children" with
        | some (.arr elems) =>
          match validateNodeList false elems with
          | some ns => some (.mk d m ns)
          | none => none
        | _ => none
      | _, _ => none
    else none
  | _ => none
termination_by Json.jsize j
decreasing_by
  all_goals
    have hle := Json.jsize_of_lookup h
    rw [Json.jsize_arr] at hle
    rw [Json.jsize_obj]
    omega

def validatePanelList (js : List Json) : Option (List Panel) :=
  match js with
  | [] => some []
  | j :: rest =>
    match validatePanel j, validatePanelList rest with
    | some p, some ps => some (p :: ps)
    | _, _ => none
termination_by Json.jsizeList js
decreasing_by
  all_goals
    rw [Json.jsizeList_cons]
    omega

end

/-- The validation entry point: `CardNode.model_validate(raw)` as called by
`generate_card` in `llm_client.py`.  The raw value must be an object whose
`kind` is the literal `"card"`, and is then validated as a `CardNode`. -/
def validateCard (j : Json) : Option Node :=
  match j with
  | .obj fields =>
    match Json.lookup fields "kind" with
    | some (.str k) => if k = "card" then validateNode true j else none
    | _ => none
  | _ => none

/-! ## Serialization

The embedding of pydantic's `model_dump(mode="json")` on a validated
document: each model serializes to an object carrying exactly its declared
fields in declaration order, with `None` optional fields emitted as
`null`. -/

def ChartType.toStr : ChartType → String
  | .bar => "bar"
  | .line => "line"

def Direction.toStr : Direction → String
  | .horizontal => "horizontal"
  | .vertical => "vertical"

def optFloatToJson : Option ℚ → Json
  | none => .null
  | some v => .num v

def ChartSeries.toJson (s : ChartSeries) : Json :=
  .obj [("name", .str s.name), ("values", .arr (s.values.map Json.num))]

mutual

def Node.toJson : Node → Json
  | .card cs => .obj [("kind", .str "card"), ("children", .arr (nodeListToJson cs))]
  | .title t => .obj [("kind", .str "title"), ("text", .str t)]
  | .subtitle t => .obj [("kind", .str "subtitle"), ("text", .str t)]
  | .text t => .obj [("kind", .str "text"), ("text", .str t)]
  | .bullets items => .obj [("kind", .str "bullets"), ("items", .arr (items.map Json.str))]
  | .table cols rows =>
    .obj [("kind", .str "table"), ("columns", .arr (cols.map Json.str)),
      ("rows", .arr (rows.map fun r => .arr (r.map Json.str)))]
  | .chart ct cats ser =>
    .obj [("kind", .str "chart"), ("chartType", .str ct.toStr),
      ("categories", .arr (cats.map Json.str)),
      ("series", .arr (ser.map ChartSeries.toJson))]
  | .resizableLayout d ps =>
    .obj [("kind", .str "resizableLayout"), ("direction", .str d.toStr),
      ("panels", .arr (panelListToJson ps))]

def nodeListToJson : List Node → List Json
  | [] => []
  | n :: ns => n.toJson :: nodeListToJson ns

def Panel.toJson : Panel → Json
  | .mk d m cs =>
    .obj [("defaultSize", optFloatToJson d), ("minSize", optFloatToJson m),
      ("children", .arr (nodeListToJson cs))]

def panelListToJson : List Panel → List Json
  | [] => []
  | p :: ps => p.toJson :: panelListToJson ps

end

/-! ## Wellformedness

The invariants a validated document satisfies: every chart passes
`validate_series_lengths`, and every panel's children are non-layout
nodes.  (Tables carry no invariant, because `TableNode` declares no
cross-field validator.) -/

mutual

def NodeWF : Node → Bool
  | .card cs => NodeListWF cs
  | .title _ => true
  | .subtitle _ => true
  | .text _ => true
  | .bullets _ => true
  | .table _ _ => true
  | .chart _ cats ser => validate_series_lengths cats ser
  | .resizableLayout _ ps => PanelListWF ps

def NodeListWF : List Node → Bool
  | [] => true
  | n :: ns => NodeWF n && NodeListWF ns

def PanelWF : Panel → Bool
  | .mk _ _ cs => NodeListWF cs && cs.all fun n => !n.isLayout

def PanelListWF : List Panel → Bool
  | [] => true
  | p :: ps => PanelWF p && PanelListWF ps

end

/-! ## Inversion lemmas: what a successful validation tells us -/

theorem validateTitleFields_some {fields : List (String × Json)} {n : Node}
    (h : validateTitleFields fields = some n) :
    checkKeys fields ["kind", "text"] = true ∧
      ∃ t, n = .title t ∧ Json.lookup fields "text" = some (.str t) := by
  rw [validateTitleFields] at h
  split at h
  · split at h
    · next t heq =>
      exact ⟨by assumption, t, by injection h with h'; exact h'.symm, heq⟩
    · exact Option.noConfusion h
  · exact Option.noConfusion h

theorem validateSubtitleFields_some {fields : List (String × Json)} {n : Node}
    (h : validateSubtitleFields fields = some n) :
    checkKeys fields ["kind", "text"] = true ∧
      ∃ t, n = .subtitle t ∧ Json.lookup fields "text" = some (.str t) := by
  rw [validateSubtitleFields] at h
  split at h
  · split at h
    · next t heq =>
      exact ⟨by assumption, t, by injection h with h'; exact h'.symm, heq⟩
    · exact Option.noConfusion h
  · exact Option.noConfusion h

theorem validateTextFields_some {fields : List (String × Json)} {n : Node}
    (h : validateTextFields fields = some n) :
    checkKeys fields ["kind", "text"] = true ∧
      ∃ t, n = .text t ∧ Json.lookup fields "text" = some (.str t) := by
  rw [validateTextFields] at h
  split at h
  · split at h
    · next t heq =>
      exact ⟨by assumption, t, by injection h with h'; exact h'.symm, heq⟩
    · exact Option.noConfusion h
  · exact Option.noConfusion h

theorem validateBulletsFields_some {fields : List (String × Json)} {n : Node}
    (h : validateBulletsFields fields = some n) :
    checkKeys fields ["kind", "items"] = true ∧ ∃ items, n = .bullets items := by
  rw [validateBulletsFields] at h
  split at h
  · split at h
    · next v heq =>
      obtain ⟨items, hv, hn⟩ := Option.map_eq_some'.mp h
      exact ⟨by assumption, items, hn.symm⟩
    · exact Option.noConfusion h
  · exact Option.noConfusion h

theorem validateTableFields_some {fields : List (String × Json)} {n : Node}
    (h : validateTableFields fields = some n) :
    checkKeys fields ["kind", "columns", "rows"] = true ∧
      ∃ cols rows, n = .table cols rows := by
  rw [validateTableFields] at h
  split at h
  · split at h
    · split at h
      · next cols rows hc hr =>
        injection h with h'
        exact ⟨by assumption, cols, rows, h'.symm⟩
      · exact Option.noConfusion h
    · exact Option.noConfusion h
  · exact Option.noConfusion h

theorem validateChartFields_some {fields : List (String × Json)} {n : Node}
    (h : validateChartFields fields = some n) :
    checkKeys fields ["kind", "chartType", "categories", "series"] = true ∧
      ∃ c cs ss, n = .chart c cs ss ∧ validate_series_lengths cs ss = true := by
  rw [validateChartFields] at h
  split at h
  · split at h
    · split at h
      · split at h
        · next hlen =>
          injection h with h'
          subst h'
          exact ⟨by assumption, _, _, _, rfl, hlen⟩
        · exact Option.noConfusion h
      · exact Option.noConfusion h
    · exact Option.noConfusion h
  · exact Option.noConfusion h

theorem validateSeries_some {fields : List (String × Json)} {s : ChartSeries}
    (h : validateSeries (.obj fields) = some s) :
    checkKeys fields ["name", "values"] = true := by
  rw [validateSeries] at h
  split at h
  · assumption
  · exact Option.noConfusion h

/-! ## Soundness: a successfully validated document is wellformed -/

theorem validator_sound (N : Nat) :
    (∀ (b : Bool) (j : Json) (n : Node), Json.jsize j ≤ N →
        validateNode b j = some n →
        NodeWF n = true ∧ (b = false → n.isLayout = false)) ∧
    (∀ (fields : List (String × Json)) (n : Node),
        Json.jsizeFields fields ≤ N → validateCardFields fields = some n →
        ∃ ns, n = .card ns ∧ NodeListWF ns = true) ∧
    (∀ (fields : List (String × Json)) (n : Node),
        Json.jsizeFields fields ≤ N → validateLayoutFields fields = some n →
        ∃ dir ps, n = .resizableLayout dir ps ∧ PanelListWF ps = true) ∧
    (∀ (b : Bool) (js : List Json) (ns : List Node), Json.jsizeList js ≤ N →
        validateNodeList b js = some ns →
        NodeListWF ns = true ∧
          (b = false → (ns.all fun n => !n.isLayout) = true)) ∧
    (∀ (j : Json) (p : Panel), Json.jsize j ≤ N →
        validatePanel j = some p → PanelWF p = true) ∧
    (∀ (js : List Json) (ps : List Panel), Json.jsizeList js ≤ N →
        validatePanelList js = some ps → PanelListWF ps = true) := by
  induction N using Nat.strong_induction_on with
  | _ N IH =>
  refine ⟨?_, ?_, ?_, ?_, ?_, ?_⟩
  · -- validateNode
    intro b j n hsz h
    rw [validateNode.eq_def] at h
    split at h
    case _ fields =>
      rw [Json.jsize_obj] at hsz
      split at h
      case _ k hk =>
        split at h
        · -- card
          obtain ⟨ns, rfl, hns⟩ :=
            (IH (Json.jsizeFields fields) (by omega)).2.1 fields n le_rfl h
          exact ⟨by simp [NodeWF]; exact hns, fun _ => rfl⟩
        · split at h
          · -- title
            obtain ⟨-, t, rfl, -⟩ := validateTitleFields_some h
            exact ⟨by simp [NodeWF], fun _ => rfl⟩
          · split at h
            · -- subtitle
              obtain ⟨-, t, rfl, -⟩ := validateSubtitleFields_some h
              exact ⟨by simp [NodeWF], fun _ => rfl⟩
            · split at h
              · -- text
                obtain ⟨-, t, rfl, -⟩ := validateTextFields_some h
                exact ⟨by simp [NodeWF], fun _ => rfl⟩
              · split at h
                · -- bullets
                  obtain ⟨-, items, rfl⟩ := validateBulletsFields_some h
                  exact ⟨by simp [NodeWF], fun _ => rfl⟩
                · split at h
                  · -- table
                    obtain ⟨-, cols, rows, rfl⟩ := validateTableFields_some h
                    exact ⟨by simp [NodeWF], fun _ => rfl⟩
                  · split at h
                    · -- chart
                      obtain ⟨-, c, cs, ss, rfl, hlen⟩ := validateChartFields_some h
                      exact ⟨by simp [NodeWF]; exact hlen, fun _ => rfl⟩
                    · split at h
                      · -- resizableLayout
                        split at h
                        case _ hA =>
                          obtain ⟨dir, ps, rfl, hps⟩ :=
                            (IH (Json.jsizeFields fields) (by omega)).2.2.1
                              fields n le_rfl h
                          refine ⟨by simp [NodeWF]; exact hps, fun hf => ?_⟩
                          rw [hf] at hA
                          exact Bool.noConfusion hA
                        case _ => exact Option.noConfusion h
                      · exact Option.noConfusion h
      case _ => exact Option.noConfusion h
    case _ => exact Option.noConfusion h
  · -- validateCardFields
    intro fields n hsz h
    rw [validateCardFields.eq_def] at h
    split at h
    · split at h
      case _ elems hlk =>
        have hx := Json.jsize_of_lookup hlk
        rw [Json.jsize_arr] at hx
        split at h
        case _ ns hns =>
          injection h with h'
          subst h'
          refine ⟨ns, rfl, ?_⟩
          exact ((IH (Json.jsizeList elems) (by omega)).2.2.2.1 true elems ns
            le_rfl hns).1
        case _ => exact Option.noConfusion h
      case _ => exact Option.noConfusion h
    · exact Option.noConfusion h
  · -- validateLayoutFields
    intro fields n hsz h
    rw [validateLayoutFields.eq_def] at h
    split at h
    · split at h
      case _ d heqd =>
        split at h
        case _ dir heqdir =>
          split at h
          case _ elems hlk =>
            have hx := Json.jsize_of_lookup hlk
            rw [Json.jsize_arr] at hx
            split at h
            case _ ps hps =>
              injection h with h'
              subst h'
              refine ⟨dir, ps, rfl, ?_⟩
              exact (IH (Json.jsizeList elems) (by omega)).2.2.2.2.2 elems ps
                le_rfl hps
            case _ => exact Option.noConfusion h
          case _ => exact Option.noConfusion h
        case _ => exact Option.noConfusion h
      case _ => exact Option.noConfusion h
    · exact Option.noConfusion h
  · -- validateNodeList
    intro b js ns hsz h
    rw [validateNodeList.eq_def] at h
    split at h
    · injection h with h'
      subst h'
      exact ⟨by simp [NodeListWF], fun _ => rfl⟩
    case _ j rest =>
      rw [Json.jsizeList_cons] at hsz
      split at h
      case _ n ms hn hns =>
        injection h with h'
        subst h'
        have h1 := (IH (Json.jsize j) (by omega)).1 b j n le_rfl hn
        have h2 := (IH (Json.jsizeList rest) (by omega)).2.2.2.1 b rest ms
          le_rfl hns
        constructor
        · simp [NodeListWF]
          exact ⟨h1.1, h2.1⟩
        · intro hf
          simp [List.all_cons, h1.2 hf, h2.2 hf]
      case _ => exact Option.noConfusion h
  · -- validatePanel
    intro j p hsz h
    rw [validatePanel.eq_def] at h
    split at h
    case _ fields =>
      rw [Json.jsize_obj] at hsz
      split at h
      · split at h
        case _ d m heqd heqm =>
          split at h
          case _ elems hlk =>
            have hx := Json.jsize_of_lookup hlk
            rw [Json.jsize_arr] at hx
            split at h
            case _ ms hms =>
              injection h with h'
              subst h'
              have hw := (IH (Json.jsizeList elems) (by omega)).2.2.2.1 false
                elems ms le_rfl hms
              have hPW : PanelWF (.mk d m ms) =
                  (NodeListWF ms && ms.all fun n => !n.isLayout) := by
                rw [PanelWF.eq_def]
              rw [hPW, Bool.and_eq_true]
              exact ⟨hw.1, hw.2 rfl⟩
            case _ => exact Option.noConfusion h
          case _ => exact Option.noConfusion h
        case _ => exact Option.noConfusion h
      · exact Option.noConfusion h
    case _ => exact Option.noConfusion h
  · -- validatePanelList
    intro js ps hsz h
    rw [validatePanelList.eq_def] at h
    split at h
    · injection h with h'
      subst h'
      simp [PanelListWF]
    case _ j rest =>
      rw [Json.jsizeList_cons] at hsz
      split at h
      case _ p qs hp hqs =>
        injection h with h'
        subst h'
        have h1 := (IH (Json.jsize j) (by omega)).2.2.2.2.1 j p le_rfl hp
        have h2 := (IH (Json.jsizeList rest) (by omega)).2.2.2.2.2 rest qs
          le_rfl hqs
        simp [PanelListWF]
        exact ⟨h1, h2⟩
      case _ => exact Option.noConfusion h

/-- Soundness for nodes: a node produced by validation is wellformed, and a
node validated against the `NonLayoutNode` union is not a layout node. -/
theorem validateNode_wf {b : Bool} {j : Json} {n : Node}
    (h : validateNode b j = some n) :
    NodeWF n = true ∧ (b = false → n.isLayout = false) :=
  (validator_sound (Json.jsize j)).1 b j n le_rfl h

theorem validateNodeList_wf {b : Bool} {js : List Json} {ns : List Node}
    (h : validateNodeList b js = some ns) :
    NodeListWF ns = true ∧
      (b = false → (ns.all fun n => !n.isLayout) = true) :=
  (validator_sound (Json.jsizeList js)).2.2.2.1 b js ns le_rfl h

/-! ## Completeness: a wellformed document round-trips through serialization -/

-- Size measure on documents, for induction over the document tree.
mutual

def Node.nsize : Node → Nat
  | .card cs => 1 + nsizeList cs
  | .title _ => 1
  | .subtitle _ => 1
  | .text _ => 1
  | .bullets _ => 1
  | .table _ _ => 1
  | .chart _ _ _ => 1
  | .resizableLayout _ ps => 1 + panelsSize ps

def nsizeList : List Node → Nat
  | [] => 0
  | n :: ns => Node.nsize n + nsizeList ns + 1

def Panel.psize : Panel → Nat
  | .mk _ _ cs => 1 + nsizeList cs

def panelsSize : List Panel → Nat
  | [] => 0
  | p :: ps => Panel.psize p + panelsSize ps + 1

end

theorem nsize_card (cs : List Node) :
    Node.nsize (.card cs) = 1 + nsizeList cs := by
  rw [Node.nsize.eq_def]

theorem nsize_layout (d : Direction) (ps : List Panel) :
    Node.nsize (.resizableLayout d ps) = 1 + panelsSize ps := by
  rw [Node.nsize.eq_def]

theorem nsizeList_cons (n : Node) (ns : List Node) :
    nsizeList (n :: ns) = Node.nsize n + nsizeList ns + 1 := by
  rw [nsizeList.eq_def]

theorem psize_mk (d m : Option ℚ) (cs : List Node) :
    Panel.psize (.mk d m cs) = 1 + nsizeList cs := by
  rw [Panel.psize.eq_def]

theorem panelsSize_cons (p : Panel) (ps : List Panel) :
    panelsSize (p :: ps) = Panel.psize p + panelsSize ps + 1 := by
  rw [panelsSize.eq_def]

theorem validateStrList_map (ss : List String) :
    validateStrList (ss.map Json.str) = some ss := by
  induction ss with
  | nil => rfl
  | cons s rest ih => simp [validateStrList, validateStr, ih]

theorem validateRowList_map (rows : List (List String)) :
    validateRowList (rows.map fun r => Json.arr (r.map Json.str)) = some rows := by
  induction rows with
  | nil => rfl
  | cons r rest ih =>
    simp [validateRowList, validateStringArray, validateStrList_map, ih]

theorem validateFloatList_map (vs : List ℚ) :
    validateFloatList (vs.map Json.num) = some vs := by
  induction vs with
  | nil => rfl
  | cons v rest ih => simp [validateFloatList, validateFloat, ih]

theorem validateSeries_toJson (s : ChartSeries) :
    validateSeries s.toJson = some s := by
  obtain ⟨n, vs⟩ := s
  simp [ChartSeries.toJson, validateSeries, Json.lookup, checkKeys,
    validateFloatArray, validateFloatList_map]

theorem validateSeriesList_map (ss : List ChartSeries) :
    validateSeriesList (ss.map ChartSeries.toJson) = some ss := by
  induction ss with
  | nil => rfl
  | cons s rest ih => simp [validateSeriesList, validateSeries_toJson, ih]

theorem validateOptFloat_round (d : Option ℚ) :
    validateOptFloat (some (optFloatToJson d)) = some d := by
  cases d <;> rfl

theorem validateChartType_round (ct : ChartType) :
    validateChartType (.str ct.toStr) = some ct := by
  cases ct <;> rfl

theorem validateDirection_round (d : Direction) :
    validateDirection (.str d.toStr) = some d := by
  cases d <;> rfl

theorem nodeListToJson_nil : nodeListToJson [] = [] := by
  rw [nodeListToJson.eq_def]

theorem nodeListToJson_cons (n : Node) (ns : List Node) :
    nodeListToJson (n :: ns) = n.toJson :: nodeListToJson ns := by
  rw [nodeListToJson.eq_def]

theorem panelListToJson_nil : panelListToJson [] = [] := by
  rw [panelListToJson.eq_def]

theorem panelListToJson_cons (p : Panel) (ps : List Panel) :
    panelListToJson (p :: ps) = p.toJson :: panelListToJson ps := by
  rw [panelListToJson.eq_def]

theorem validateNodeList_nil (b : Bool) : validateNodeList b [] = some [] := by
  rw [validateNodeList.eq_def]

theorem validatePanelList_nil : validatePanelList [] = some [] := by
  rw [validatePanelList.eq_def]

theorem validator_complete (N : Nat) :
    (∀ (b : Bool) (n : Node), Node.nsize n ≤ N → NodeWF n = true →
        (b = false → n.isLayout = false) →
        validateNode b n.toJson = some n) ∧
    (∀ (b : Bool) (ns : List Node), nsizeList ns ≤ N → NodeListWF ns = true →
        (b = false → (ns.all fun x => !x.isLayout) = true) →
        validateNodeList b (nodeListToJson ns) = some ns) ∧
    (∀ (p : Panel), Panel.psize p ≤ N → PanelWF p = true →
        validatePanel p.toJson = some p) ∧
    (∀ (ps : List Panel), panelsSize ps ≤ N → PanelListWF ps = true →
        validatePanelList (panelListToJson ps) = some ps) := by
  induction N using Nat.strong_induction_on with
  | _ N IH =>
  refine ⟨?_, ?_, ?_, ?_⟩
  · -- nodes
    intro b n hsz hwf hnl
    cases n with
    | card cs =>
      rw [nsize_card] at hsz
      have hwf' : NodeListWF cs = true := by
        have hq : NodeWF (.card cs) = NodeListWF cs := by rw [NodeWF.eq_def]
        rw [hq] at hwf
        exact hwf
      have hrec := (IH (nsizeList cs) (by omega)).2.1 true cs le_rfl hwf'
        (fun hf => Bool.noConfusion hf)
      have ht : Node.toJson (.card cs) =
          .obj [("kind", .str "card"),
            ("children", .arr (nodeListToJson cs))] := by
        rw [Node.toJson.eq_def]
      rw [ht, validateNode.eq_def]
      simp only [Json.lookup]
      simp [validateCardFields, Json.lookup, checkKeys, hrec]
    | title t =>
      have ht : Node.toJson (.title t) =
          .obj [("kind", .str "title"), ("text", .str t)] := by
        rw [Node.toJson.eq_def]
      rw [ht, validateNode.eq_def]
      simp [Json.lookup, validateTitleFields, checkKeys]
    | subtitle t =>
      have ht : Node.toJson (.subtitle t) =
          .obj [("kind", .str "subtitle"), ("text", .str t)] := by
        rw [Node.toJson.eq_def]
      rw [ht, validateNode.eq_def]
      simp [Json.lookup, validateSubtitleFields, checkKeys]
    | text t =>
      have ht : Node.toJson (.text t) =
          .obj [("kind", .str "text"), ("text", .str t)] := by
        rw [Node.toJson.eq_def]
      rw [ht, validateNode.eq_def]
      simp [Json.lookup, validateTextFields, checkKeys]
    | bullets items =>
      have ht : Node.toJson (.bullets items) =
          .obj [("kind", .str "bullets"),
            ("items", .arr (items.map Json.str))] := by
        rw [Node.toJson.eq_def]
      rw [ht, validateNode.eq_def]
      simp [Json.lookup, validateBulletsFields, checkKeys,
        validateStringArray, validateStrList_map]
    | table cols rows =>
      have ht : Node.toJson (.table cols rows) =
          .obj [("kind", .str "table"),
            ("columns", .arr (cols.map Json.str)),
            ("rows", .arr (rows.map fun r => .arr (r.map Json.str)))] := by
        rw [Node.toJson.eq_def]
      rw [ht, validateNode.eq_def]
      simp [Json.lookup, validateTableFields, checkKeys,
        validateStringArray, validateStrList_map, validateRowArray,
        validateRowList_map]
    | chart ct cats ser =>
      have hwf' : validate_series_lengths cats ser = true := by
        have hq : NodeWF (.chart ct cats ser) =
            validate_series_lengths cats ser := by rw [NodeWF.eq_def]
        rw [hq] at hwf
        exact hwf
      have ht : Node.toJson (.chart ct cats ser) =
          .obj [("kind", .str "chart"), ("chartType", .str ct.toStr),
            ("categories", .arr (cats.map Json.str)),
            ("series", .arr (ser.map ChartSeries.toJson))] := by
        rw [Node.toJson.eq_def]
      rw [ht, validateNode.eq_def]
      simp [Json.lookup, validateChartFields, checkKeys,
        validateChartType_round, validateStringArray, validateStrList_map,
        validateSeriesArray, validateSeriesList_map, hwf']
    | resizableLayout dir ps =>
      have hb : b = true := by
        cases b
        · exact absurd (hnl rfl) (by simp [Node.isLayout])
        · rfl
      subst hb
      rw [nsize_layout] at hsz
      have hwf' : PanelListWF ps = true := by
        have hq : NodeWF (.resizableLayout dir ps) = PanelListWF ps := by
          rw [NodeWF.eq_def]
        rw [hq] at hwf
        exact hwf
      have hrec := (IH (panelsSize ps) (by omega)).2.2.2 ps le_rfl hwf'
      have ht : Node.toJson (.resizableLayout dir ps) =
          .obj [("kind", .str "resizableLayout"),
            ("direction", .str dir.toStr),
            ("panels", .arr (panelListToJson ps))] := by
        rw [Node.toJson.eq_def]
      rw [ht, validateNode.eq_def]
      simp [Json.lookup, validateLayoutFields, checkKeys,
        validateDirection_round, hrec]
  · -- node lists
    intro b ns hsz hwf hnl
    cases ns with
    | nil =>
      rw [nodeListToJson_nil]
      exact validateNodeList_nil b
    | cons n rest =>
      rw [nsizeList_cons] at hsz
      have hwf' : NodeWF n = true ∧ NodeListWF rest = true := by
        have hq : NodeListWF (n :: rest) = (NodeWF n && NodeListWF rest) := by
          rw [NodeListWF.eq_def]
        rw [hq, Bool.and_eq_true] at hwf
        exact hwf
      have hnl1 : b = false → n.isLayout = false := by
        intro hf
        have hall := hnl hf
        simp only [List.all_cons, Bool.and_eq_true, Bool.not_eq_true'] at hall
        exact hall.1
      have hnl2 : b = false → (rest.all fun x => !x.isLayout) = true := by
        intro hf
        have hall := hnl hf
        simp only [List.all_cons, Bool.and_eq_true] at hall
        exact hall.2
      have h1 := (IH (Node.nsize n) (by omega)).1 b n le_rfl hwf'.1 hnl1
      have h2 := (IH (nsizeList rest) (by omega)).2.1 b rest le_rfl hwf'.2 hnl2
      rw [nodeListToJson_cons, validateNodeList.eq_def]
      simp [h1, h2]
  · -- panels
    intro p hsz hwf
    obtain ⟨d, m, cs⟩ := p
    rw [psize_mk] at hsz
    have hPW : PanelWF (.mk d m cs) =
        (NodeListWF cs && cs.all fun x => !x.isLayout) := by
      rw [PanelWF.eq_def]
    rw [hPW, Bool.and_eq_true] at hwf
    have hrec := (IH (nsizeList cs) (by omega)).2.1 false cs le_rfl hwf.1
      (fun _ => hwf.2)
    have ht : Panel.toJson (.mk d m cs) =
        .obj [("defaultSize", optFloatToJson d), ("minSize", optFloatToJson m),
          ("children", .arr (nodeListToJson cs))] := by
      rw [Panel.toJson.eq_def]
    rw [ht, validatePanel.eq_def]
    simp [Json.lookup, checkKeys, validateOptFloat_round, hrec]
  · -- panel lists
    intro ps hsz hwf
    cases ps with
    | nil =>
      rw [panelListToJson_nil]
      exact validatePanelList_nil
    | cons p rest =>
      rw [panelsSize_cons] at hsz
      have hwf' : PanelWF p = true ∧ PanelListWF rest = true := by
        have hq : PanelListWF (p :: rest) = (PanelWF p && PanelListWF rest) := by
          rw [PanelListWF.eq_def]
        rw [hq, Bool.and_eq_true] at hwf
        exact hwf
      have h1 := (IH (Panel.psize p) (by omega)).2.2.1 p le_rfl hwf'.1
      have h2 := (IH (panelsSize rest) (by omega)).2.2.2 rest le_rfl hwf'.2
      rw [panelListToJson_cons, validatePanelList.eq_def]
      simp [h1, h2]

/-- A wellformed node re-validates to itself from its serialization. -/
theorem validateNode_toJson {b : Bool} {n : Node} (hwf : NodeWF n = true)
    (hnl : b = false → n.isLayout = false) :
    validateNode b n.toJson = some n :=
  (validator_complete (Node.nsize n)).1 b n le_rfl hwf hnl

/-- On an object whose `kind` is `"card"`, the union validator runs the
`CardNode` field validator. -/
theorem validateNode_obj_card {fields : List (String × Json)} (b : Bool)
    (hk : Json.lookup fields "kind" = some (.str "card")) :
    validateNode b (.obj fields) = validateCardFields fields := by
  rw [validateNode.eq_def]
  simp [hk]

theorem validateCardFields_shape {fields : List (String × Json)} {n : Node}
    (h : validateCardFields fields = some n) :
    ∃ ns, n = .card ns ∧ NodeListWF ns = true :=
  (validator_sound (Json.jsizeFields fields)).2.1 fields n le_rfl h

/-- Serializing a wellformed card and validating again succeeds. -/
theorem validateCard_toJson_card {cs : List Node} (hns : NodeListWF cs = true) :
    validateCard (Node.toJson (.card cs)) = some (.card cs) := by
  have hwf : NodeWF (.card cs) = true := by
    have hq : NodeWF (.card cs) = NodeListWF cs := by rw [NodeWF.eq_def]
    rw [hq]
    exact hns
  have hv := validateNode_toJson (b := true) hwf (fun hf => Bool.noConfusion hf)
  have ht : Node.toJson (.card cs) =
      .obj [("kind", .str "card"), ("children", .arr (nodeListToJson cs))] := by
    rw [Node.toJson.eq_def]
  rw [ht, validateCard.eq_def]
  simp only [Json.lookup]
  simp only [reduceIte]
  rw [← ht]
  exact hv

/-! ## The generation pipeline of `llm_client.py` and `main.py` -/

/-- The exception raised by `generate_card` on validation failure: a Python
`ValueError` carrying a single message string. -/
inductive PyErr where
  | valueError (msg : String)
deriving DecidableEq

/-- Embeds `generate_card` from `llm_client.py`, applied to the JSON value `raw`
returned by the external model call.  On success it returns the validated
card; on a pydantic `ValidationError` it raises
`ValueError(f"Model returned invalid card JSON: {exc}")`, where
`pydanticMessage` stands for the stringified pydantic error `{exc}`. -/
def generate_card (pydanticMessage : String) (raw : Json) : Except PyErr Node :=
  match validateCard raw with
  | some card => .ok card
  | none =>
    .error (.valueError ("Model returned invalid card JSON: " ++ pydanticMessage))

/-- Embeds `generate_card_endpoint` from `main.py`: any exception from
`generate_card` is mapped to `HTTPException(status_code=500, detail=str(exc))`,
embodied here as a status code paired with the detail string. -/
def generate_card_endpoint (pydanticMessage : String) (raw : Json) :
    Except (Nat × String) Node :=
  match generate_card pydanticMessage raw with
  | .ok card => .ok card
  | .error (.valueError msg) => .error (500, msg)

/-! ## Auxiliary lemmas for the claim theorems -/

theorem validateNodeList_cons (b : Bool) (x : Json) (rest : List Json) :
    validateNodeList b (x :: rest) =
      match validateNode b x, validateNodeList b rest with
      | some n, some ns => some (n :: ns)
      | _, _ => none := by
  rw [validateNodeList.eq_def]

/-- A child list fails to validate as soon as one member fails. -/
theorem validateNodeList_none_of_mem {b : Bool} {j : Json} {js : List Json}
    (hj : j ∈ js) (hn : validateNode b j = none) :
    validateNodeList b js = none := by
  induction js with
  | nil => cases hj
  | cons x rest ih =>
    rw [validateNodeList_cons]
    rcases List.mem_cons.mp hj with rfl | hmem
    · rw [hn]
    · cases hx : validateNode b x
      · rfl
      · rw [ih hmem]
  -- the match on (some _, none) and (none, _) both yield none

/-- Every member of a successfully validated child list validates. -/
theorem validateNodeList_some_mem {b : Bool} {js : List Json} {ns : List Node}
    (h : validateNodeList b js = some ns) :
    ∀ j ∈ js, ∃ n, validateNode b j = some n := by
  induction js generalizing ns with
  | nil => intro j hj; cases hj
  | cons x rest ih =>
    rw [validateNodeList_cons] at h
    split at h
    case _ n ms hn hms =>
      intro j hj
      rcases List.mem_cons.mp hj with rfl | hj'
      · exact ⟨n, hn⟩
      · exact ih hms j hj'
    case _ => exact Option.noConfusion h

theorem validateCardFields_keys {fields : List (String × Json)} {n : Node}
    (h : validateCardFields fields = some n) :
    checkKeys fields ["kind", "children"] = true := by
  rw [validateCardFields.eq_def] at h
  split at h
  · assumption
  · exact Option.noConfusion h

theorem validateLayoutFields_keys {fields : List (String × Json)} {n : Node}
    (h : validateLayoutFields fields = some n) :
    checkKeys fields ["kind", "direction", "panels"] = true := by
  rw [validateLayoutFields.eq_def] at h
  split at h
  · assumption
  · exact Option.noConfusion h

theorem validatePanel_keys {fields : List (String × Json)} {p : Panel}
    (h : validatePanel (.obj fields) = some p) :
    checkKeys fields ["defaultSize", "minSize", "children"] = true := by
  simp only [validatePanel] at h
  split at h
  · assumption
  · exact Option.noConfusion h

/-- The children of a validated panel validate against the
`NonLayoutNode` union. -/
theorem validatePanel_children {fields : List (String × Json)} {p : Panel}
    {elems : List Json}
    (h : validatePanel (.obj fields) = some p)
    (hc : Json.lookup fields "children" = some (.arr elems)) :
    ∃ ns, validateNodeList false elems = some ns := by
  simp only [validatePanel] at h
  split at h
  · split at h
    case _ d m heqd heqm =>
      split at h
      case _ elems' hlk =>
        rw [hc] at hlk
        injection hlk with hlk'
        injection hlk' with hlk''
        subst hlk''
        split at h
        case _ ns hns => exact ⟨ns, hns⟩
        case _ => exact Option.noConfusion h
      case _ hne =>
        exact absurd hc (by intro hcc; exact hne elems hcc)
    case _ => exact Option.noConfusion h
  · exact Option.noConfusion h

/-- The content of `validate_series_lengths` as propositions. -/
theorem validate_series_lengths_spec {cats : List String}
    {ser : List ChartSeries} (h : validate_series_lengths cats ser = true) :
    (cats = [] → ser = []) ∧ ∀ s ∈ ser, s.values.length = cats.length := by
  rw [validate_series_lengths, Bool.and_eq_true] at h
  obtain ⟨h1, h2⟩ := h
  constructor
  · intro hc
    subst hc
    simp at h1
    exact h1
  · intro s hs
    rw [List.all_eq_true] at h2
    have := h2 s hs
    simpa using this

/-- A top-level object whose `kind` is not `"card"` is rejected by
`CardNode.model_validate`. -/
theorem validateCard_nonCard {fields : List (String × Json)} {k : String}
    (hk : Json.lookup fields "kind" = some (.str k)) (hne : k ≠ "card") :
    validateCard (.obj fields) = none := by
  rw [validateCard.eq_def]
  simp [hk, hne]

/-- The declared field names of each node variant (the model's closed
field set). -/
def declaredKeys : String → List String
  | "card" => ["kind", "children"]
  | "title" => ["kind", "text"]
  | "subtitle" => ["kind", "text"]
  | "text" => ["kind", "text"]
  | "bullets" => ["kind", "items"]
  | "table" => ["kind", "columns", "rows"]
  | "chart" => ["kind", "chartType", "categories", "series"]
  | "resizableLayout" => ["kind", "direction", "panels"]
  | _ => []

/-- The `kind` strings recognized by the discriminated union `Node`. -/
def recognizedKinds : List String :=
  ["card", "title", "subtitle", "text", "bullets", "table", "chart",
    "resizableLayout"]

/-- Whether a JSON value is an object carrying a recognized `kind`
discriminator. -/
def hasRecognizedKind (j : Json) : Bool :=
  match j with
  | .obj fields =>
    match Json.lookup fields "kind" with
    | some (.str k) => recognizedKinds.contains k
    | _ => false
  | _ => false

/-- In a `NonLayoutNode` position (panel children), an object tagged
`resizableLayout` is rejected outright. -/
theorem validateNode_layout_in_nonlayout {g : List (String × Json)}
    (hk : Json.lookup g "kind" = some (.str "resizableLayout")) :
    validateNode false (.obj g) = none := by
  rw [validateNode.eq_def]
  simp [hk]

/-! ## Concrete JSON examples from the specification -/

def mkCardJson (children : List Json) : Json :=
  .obj [("kind", .str "card"), ("children", .arr children)]

def jsonTitle : Json := .obj [("kind", .str "title"), ("text", .str "x")]

/-- The value `{"kind":"table","columns":["A","B"],"rows":[["x"]]}`. -/
def jsonTableShortRow : Json :=
  .obj [("kind", .str "table"), ("columns", .arr [.str "A", .str "B"]),
    ("rows", .arr [.arr [.str "x"]])]

/-- The value `{"kind":"table","columns":["A","B"],"rows":[["x","y"]]}`. -/
def jsonTableOkRow : Json :=
  .obj [("kind", .str "table"), ("columns", .arr [.str "A", .str "B"]),
    ("rows", .arr [.arr [.str "x", .str "y"]])]

def jsonSeries (name : String) (vals : List Json) : Json :=
  .obj [("name", .str name), ("values", .arr vals)]

/-- The value `{"kind":"chart","chartType":"line","categories":[],"series":[]}`. -/
def jsonChartEmptyOk : Json :=
  .obj [("kind", .str "chart"), ("chartType", .str "line"),
    ("categories", .arr []), ("series", .arr [])]

/-- An otherwise wellformed chart with empty categories but one series. -/
def jsonChartEmptyCatsBad : Json :=
  .obj [("kind", .str "chart"), ("chartType", .str "line"),
    ("categories", .arr []), ("series", .arr [jsonSeries "Rev" []])]

/-- A chart whose single series has 1 value against 2 categories. -/
def jsonChartMismatch : Json :=
  .obj [("kind", .str "chart"), ("chartType", .str "bar"),
    ("categories", .arr [.str "Q1", .str "Q2"]),
    ("series", .arr [jsonSeries "Rev" [.num 10]])]

/-- The value `{"kind":"chart","chartType":"bar","categories":["Q1","Q2"],
"series":[{"name":"Rev","values":[10,20]}]}`. -/
def jsonChartGood : Json :=
  .obj [("kind", .str "chart"), ("chartType", .str "bar"),
    ("categories", .arr [.str "Q1", .str "Q2"]),
    ("series", .arr [jsonSeries "Rev" [.num 10, .num 20]])]

/-- A card holding one horizontal layout with one panel whose
`defaultSize` is the given JSON value. -/
def jsonPanelSizeCard (v : Json) : Json :=
  mkCardJson [.obj [("kind", .str "resizableLayout"),
    ("direction", .str "horizontal"),
    ("panels", .arr [.obj [("defaultSize", v), ("children", .arr [])]])]]

/-- The value `{"kind":"title","text":"x","style":"bold"}`. -/
def jsonTitleExtra : Json :=
  .obj [("kind", .str "title"), ("text", .str "x"), ("style", .str "bold")]

/-- The value `{"kind":"paragraph"}`. -/
def jsonParagraph : Json := .obj [("kind", .str "paragraph")]

/-- The value `{"kind":"text","text":"x"}`, offered as the top-level value. -/
def jsonTextTop : Json := .obj [("kind", .str "text"), ("text", .str "x")]

/-! ## The claims -/

/-- C1: the specification demands that every table row's length equal the
number of columns, and that `{"kind":"table","columns":["A","B"],
"rows":[["x"]]}` fail validation.  The code has no such check: `TableNode`
declares no row-length validator, so the mismatched table validates
successfully (also inside a card), while the matching table validates as
the spec says.  This theorem documents the divergence by evaluating the
embedded validator. -/
theorem C1_table_row_length_unchecked :
    validateNode true jsonTableShortRow = some (.table ["A", "B"] [["x"]]) ∧
    validateCard (mkCardJson [jsonTableShortRow]) =
      some (.card [.table ["A", "B"] [["x"]]]) ∧
    validateNode true jsonTableOkRow = some (.table ["A", "B"] [["x", "y"]]) := by
  refine ⟨?_, ?_, ?_⟩ <;>
    simp [jsonTableShortRow, jsonTableOkRow, mkCardJson, validateCard,
      validateNode, validateCardFields, validateNodeList, validateTableFields,
      validateStringArray, validateStrList, validateRowArray, validateRowList,
      validateStr, checkKeys, Json.lookup]

/-- C2: a chart validates only if an empty `categories` forces an empty
`series` and every series' `values` length equals the category count;
`{"kind":"chart","chartType":"line","categories":[],"series":[]}` succeeds,
the same with a non-empty series fails, and a series/category length
mismatch fails. -/
theorem C2_chart_series_invariants :
    (∀ (b : Bool) (j : Json) (ct : ChartType) (cats : List String)
        (ser : List ChartSeries),
        validateNode b j = some (.chart ct cats ser) →
        (cats = [] → ser = []) ∧ ∀ s ∈ ser, s.values.length = cats.length) ∧
    validateNode true jsonChartEmptyOk = some (.chart .line [] []) ∧
    validateNode true jsonChartEmptyCatsBad = none ∧
    validateNode true jsonChartMismatch = none := by
  refine ⟨?_, ?_, ?_, ?_⟩
  · intro b j ct cats ser h
    have hwf := (validateNode_wf h).1
    have hq : NodeWF (.chart ct cats ser) = validate_series_lengths cats ser := by
      rw [NodeWF.eq_def]
    rw [hq] at hwf
    exact validate_series_lengths_spec hwf
  all_goals
    simp [jsonChartEmptyOk, jsonChartEmptyCatsBad, jsonChartMismatch,
      jsonSeries, validateNode, validateChartFields, validateChartType,
      validateStringArray, validateStrList, validateStr, validateSeriesArray,
      validateSeriesList, validateSeries, validateFloatArray,
      validateFloatList, validateFloat, validate_series_lengths, checkKeys,
      Json.lookup]

/-- Witness for C2 at the spec's example chart. -/
theorem C2_chart_series_invariants_witness :
    ((["Q1", "Q2"] : List String) = [] →
      ([⟨"Rev", [10, 20]⟩] : List ChartSeries) = []) ∧
    ∀ s ∈ ([⟨"Rev", [10, 20]⟩] : List ChartSeries),
      s.values.length = (["Q1", "Q2"] : List String).length :=
  C2_chart_series_invariants.1 true jsonChartGood .bar ["Q1", "Q2"]
    [⟨"Rev", [10, 20]⟩] (by
      simp [jsonChartGood, jsonSeries, validateNode, validateChartFields,
        validateChartType, validateStringArray, validateStrList, validateStr,
        validateSeriesArray, validateSeriesList, validateSeries,
        validateFloatArray, validateFloatList, validateFloat,
        validate_series_lengths, checkKeys, Json.lookup])

/-- C3: the spec says numeric fields reject strings even when
numeric-looking.  pydantic v2's default lax validation coerces
numeric-looking strings: a panel `defaultSize` given as the string `"10"`
validates successfully (to the float 10), refuting the claim. -/
theorem C3_counterexample_numeric_string_accepted :
    validateCard (jsonPanelSizeCard (.str "10")) =
      some (.card [.resizableLayout .horizontal [.mk (some 10) none []]]) := by
  have hp : parsePydFloat "10" = some 10 := by decide
  simp [jsonPanelSizeCard, mkCardJson, validateCard, validateNode,
    validateCardFields, validateLayoutFields, validateNodeList,
    validatePanelList, validatePanel, validateDirection, validateOptFloat,
    validateFloat, hp, checkKeys, Json.lookup]

/-- C3 (amended): integers and floats are accepted for numeric fields; a
string is accepted exactly when pydantic's lax coercion parses it — an
optionally signed decimal or scientific-notation literal with surrounding
whitespace trimmed, or a non-finite spelling (`inf`, `infinity`, `nan`).
For every string other than the non-finite spellings (whose values a
rational-valued document cannot carry, and which are therefore set aside
by hypothesis) the validated document holds exactly the parsed value; in
particular `" 1e5 "` is accepted as 100000, and only non-numeric strings
are rejected. -/
theorem C3_amended_lax_string_coercion :
    (∀ s : String, isInfNanStr s = false →
      validateCard (jsonPanelSizeCard (.str s)) =
        (parsePydFloat s).map fun q =>
          .card [.resizableLayout .horizontal [.mk (some q) none []]]) ∧
    (∀ q : ℚ, validateCard (jsonPanelSizeCard (.num q)) =
      some (.card [.resizableLayout .horizontal [.mk (some q) none []]])) ∧
    validateCard (jsonPanelSizeCard (.str " 1e5 ")) =
      some (.card [.resizableLayout .horizontal [.mk (some 100000) none []]]) := by
  refine ⟨?_, ?_, ?_⟩
  · intro s hs
    cases hp : parsePydFloat s <;>
      simp [jsonPanelSizeCard, mkCardJson, validateCard, validateNode,
        validateCardFields, validateLayoutFields, validateNodeList,
        validatePanelList, validatePanel, validateDirection, validateOptFloat,
        validateFloat, hp, checkKeys, Json.lookup]
  · intro q
    simp [jsonPanelSizeCard, mkCardJson, validateCard, validateNode,
      validateCardFields, validateLayoutFields, validateNodeList,
      validatePanelList, validatePanel, validateDirection, validateOptFloat,
      validateFloat, checkKeys, Json.lookup]
  · have hp : parsePydFloat " 1e5 " = some 100000 := by
      simp [parsePydFloat, parseFloatBody, parseExpPart, applyExp, trimWs,
        digitsVal]
      norm_num
    simp [jsonPanelSizeCard, mkCardJson, validateCard, validateNode,
      validateCardFields, validateLayoutFields, validateNodeList,
      validatePanelList, validatePanel, validateDirection, validateOptFloat,
      validateFloat, hp, checkKeys, Json.lookup]

/-- Witness for the amended C3 at the scientific-notation string `"1e5"`. -/
theorem C3_amended_lax_string_coercion_witness :
    isInfNanStr "1e5" = false ∧
    validateCard (jsonPanelSizeCard (.str "1e5")) =
      (parsePydFloat "1e5").map fun q =>
        .card [.resizableLayout .horizontal [.mk (some q) none []]] :=
  ⟨by decide, C3_amended_lax_string_coercion.1 "1e5" (by decide)⟩

/-- The value `{"kind":"resizableLayout","direction":"vertical","panels":[]}`. -/
def jsonInnerLayout : Json :=
  .obj [("kind", .str "resizableLayout"), ("direction", .str "vertical"),
    ("panels", .arr [])]

/-- A card holding a layout whose panel's children contain a nested
`resizableLayout` object. -/
def jsonNestedLayoutCard : Json :=
  mkCardJson [.obj [("kind", .str "resizableLayout"),
    ("direction", .str "horizontal"),
    ("panels", .arr [.obj [("children", .arr [jsonInnerLayout])]])]]

/-- C4: a panel whose children array directly contains an object tagged
`resizableLayout` never validates, however wellformed the rest of the input
is; concretely, a card with such a panel is rejected. -/
theorem C4_panel_rejects_layout_child :
    (∀ (fields g : List (String × Json)) (elems : List Json) (j : Json),
        Json.lookup fields "children" = some (.arr elems) →
        j ∈ elems → j = .obj g →
        Json.lookup g "kind" = some (.str "resizableLayout") →
        validatePanel (.obj fields) = none) ∧
    validateCard jsonNestedLayoutCard = none := by
  constructor
  · intro fields g elems j hc hm hj hkg
    cases hv : validatePanel (.obj fields) with
    | none => rfl
    | some p =>
      exfalso
      obtain ⟨ns, hns⟩ := validatePanel_children hv hc
      obtain ⟨n, hn⟩ := validateNodeList_some_mem hns j hm
      subst hj
      rw [validateNode_layout_in_nonlayout hkg] at hn
      exact Option.noConfusion hn
  · simp [jsonNestedLayoutCard, jsonInnerLayout, mkCardJson, validateCard,
      validateNode, validateCardFields, validateLayoutFields,
      validateNodeList, validatePanelList, validatePanel, validateDirection,
      validateOptFloat, checkKeys, Json.lookup]

/-- Witness for C4 at a concrete panel. -/
theorem C4_panel_rejects_layout_child_witness :
    validatePanel (.obj [("children", .arr [jsonInnerLayout])]) = none :=
  C4_panel_rejects_layout_child.1 [("children", .arr [jsonInnerLayout])]
    [("kind", .str "resizableLayout"), ("direction", .str "vertical"),
      ("panels", .arr [])]
    [jsonInnerLayout] jsonInnerLayout (by simp [Json.lookup])
    (List.mem_singleton.mpr rfl) rfl (by simp [jsonInnerLayout, Json.lookup])

/-- C5: `generate_card` validates the root value specifically as a
`CardNode`: any top-level object whose `kind` is not `"card"` is rejected,
even when — like `{"kind":"text","text":"x"}` — it validates as a node in a
child position. -/
theorem C5_root_must_be_card :
    (∀ (fields : List (String × Json)) (k : String),
        Json.lookup fields "kind" = some (.str k) → k ≠ "card" →
        validateCard (.obj fields) = none) ∧
    validateCard jsonTextTop = none ∧
    validateNode true jsonTextTop = some (.text "x") := by
  refine ⟨fun fields k hk hne => validateCard_nonCard hk hne, ?_, ?_⟩ <;>
    simp [jsonTextTop, validateCard, validateNode, validateTextFields,
      checkKeys, Json.lookup]

/-- Witness for C5 at `{"kind":"text","text":"x"}`. -/
theorem C5_root_must_be_card_witness :
    validateCard (.obj [("kind", .str "text"), ("text", .str "x")]) = none :=
  C5_root_must_be_card.1 [("kind", .str "text"), ("text", .str "x")] "text"
    (by simp [Json.lookup]) (by decide)

/-- A successful node validation certifies the closed field set of the
dispatched variant. -/
theorem validateNode_obj_keys {b : Bool} {fields : List (String × Json)}
    {n : Node} (h : validateNode b (.obj fields) = some n) :
    ∃ k, Json.lookup fields "kind" = some (.str k) ∧
      checkKeys fields (declaredKeys k) = true := by
  simp only [validateNode] at h
  split at h
  case _ k hk =>
    refine ⟨k, hk, ?_⟩
    split at h
    case _ hc =>
      subst hc
      simpa [declaredKeys] using validateCardFields_keys h
    case _ hc =>
      split at h
      case _ hc' =>
        subst hc'
        simpa [declaredKeys] using (validateTitleFields_some h).1
      case _ hc' =>
        split at h
        case _ hc2 =>
          subst hc2
          simpa [declaredKeys] using (validateSubtitleFields_some h).1
        case _ hc2 =>
          split at h
          case _ hc3 =>
            subst hc3
            simpa [declaredKeys] using (validateTextFields_some h).1
          case _ hc3 =>
            split at h
            case _ hc4 =>
              subst hc4
              simpa [declaredKeys] using (validateBulletsFields_some h).1
            case _ hc4 =>
              split at h
              case _ hc5 =>
                subst hc5
                simpa [declaredKeys] using (validateTableFields_some h).1
              case _ hc5 =>
                split at h
                case _ hc6 =>
                  subst hc6
                  simpa [declaredKeys] using (validateChartFields_some h).1
                case _ hc6 =>
                  split at h
                  case _ hc7 =>
                    subst hc7
                    split at h
                    case _ =>
                      simpa [declaredKeys] using validateLayoutFields_keys h
                    case _ => exact Option.noConfusion h
                  case _ hc7 => exact Option.noConfusion h
  case _ => exact Option.noConfusion h

/-- C6: every node object (and chart series object, and panel object) that
validates carries only its variant's declared fields; in particular
`{"kind":"title","text":"x","style":"bold"}` is rejected. -/
theorem C6_closed_schema :
    (∀ (b : Bool) (fields : List (String × Json)) (n : Node),
        validateNode b (.obj fields) = some n →
        ∃ k, Json.lookup fields "kind" = some (.str k) ∧
          checkKeys fields (declaredKeys k) = true) ∧
    (∀ (fields : List (String × Json)) (s : ChartSeries),
        validateSeries (.obj fields) = some s →
        checkKeys fields ["name", "values"] = true) ∧
    (∀ (fields : List (String × Json)) (p : Panel),
        validatePanel (.obj fields) = some p →
        checkKeys fields ["defaultSize", "minSize", "children"] = true) ∧
    validateNode true jsonTitleExtra = none := by
  refine ⟨fun b fields n h => validateNode_obj_keys h,
    fun fields s h => validateSeries_some h,
    fun fields p h => validatePanel_keys h, ?_⟩
  simp [jsonTitleExtra, validateNode, validateTitleFields, checkKeys,
    Json.lookup]

/-- Witness for C6 at `{"kind":"title","text":"x"}`. -/
theorem C6_closed_schema_witness :
    ∃ k, Json.lookup [("kind", Json.str "title"), ("text", Json.str "x")]
        "kind" = some (.str k) ∧
      checkKeys [("kind", Json.str "title"), ("text", Json.str "x")]
        (declaredKeys k) = true :=
  C6_closed_schema.1 true [("kind", Json.str "title"), ("text", Json.str "x")]
    (.title "x")
    (by simp [validateNode, validateTitleFields, checkKeys, Json.lookup])

/-- A value that is not an object with a recognized `kind` string fails to
validate in any node position. -/
theorem validateNode_unrecognized {b : Bool} {j : Json}
    (h : hasRecognizedKind j = false) : validateNode b j = none := by
  cases j with
  | obj fields =>
    cases hk : Json.lookup fields "kind" with
    | none =>
      rw [validateNode.eq_def]
      simp [hk]
    | some v =>
      cases v with
      | str k =>
        simp only [hasRecognizedKind, hk] at h
        have h1 : k ≠ "card" := fun he => absurd (he ▸ h) (by decide)
        have h2 : k ≠ "title" := fun he => absurd (he ▸ h) (by decide)
        have h3 : k ≠ "subtitle" := fun he => absurd (he ▸ h) (by decide)
        have h4 : k ≠ "text" := fun he => absurd (he ▸ h) (by decide)
        have h5 : k ≠ "bullets" := fun he => absurd (he ▸ h) (by decide)
        have h6 : k ≠ "table" := fun he => absurd (he ▸ h) (by decide)
        have h7 : k ≠ "chart" := fun he => absurd (he ▸ h) (by decide)
        have h8 : k ≠ "resizableLayout" := fun he => absurd (he ▸ h) (by decide)
        rw [validateNode.eq_def]
        simp [hk, h1, h2, h3, h4, h5, h6, h7, h8]
      | null => rw [validateNode.eq_def]; simp [hk]
      | bool c => rw [validateNode.eq_def]; simp [hk]
      | num v => rw [validateNode.eq_def]; simp [hk]
      | arr elems => rw [validateNode.eq_def]; simp [hk]
      | obj g => rw [validateNode.eq_def]; simp [hk]
  | null => rw [validateNode.eq_def]
  | bool c => rw [validateNode.eq_def]
  | num v => rw [validateNode.eq_def]
  | str s => rw [validateNode.eq_def]
  | arr elems => rw [validateNode.eq_def]

/-- An unrecognized node anywhere in a card's children list makes the whole
card fail. -/
theorem validateCard_unrecognized_child {j : Json}
    (h : hasRecognizedKind j = false) (pre post : List Json) :
    validateCard (mkCardJson (pre ++ j :: post)) = none := by
  have hn : validateNode true j = none := validateNode_unrecognized h
  have hl : validateNodeList true (pre ++ j :: post) = none :=
    validateNodeList_none_of_mem (by simp) hn
  simp [mkCardJson, validateCard, validateNode, validateCardFields, checkKeys,
    Json.lookup, hl]

/-- C7: an object in node position whose `kind` is missing, not a string,
or not one of the recognized kind strings fails validation there, and makes
any card containing it fail; `{"kind":"paragraph"}` fails. -/
theorem C7_unrecognized_kind_rejected :
    (∀ (b : Bool) (j : Json), hasRecognizedKind j = false →
        validateNode b j = none) ∧
    (∀ (j : Json) (pre post : List Json), hasRecognizedKind j = false →
        validateCard (mkCardJson (pre ++ j :: post)) = none) ∧
    validateNode true jsonParagraph = none := by
  refine ⟨fun b j h => validateNode_unrecognized h,
    fun j pre post h => validateCard_unrecognized_child h pre post, ?_⟩
  simp [jsonParagraph, validateNode, checkKeys, Json.lookup]

/-- Witness for C7: `{"kind":"paragraph"}` amid otherwise valid children. -/
theorem C7_unrecognized_kind_rejected_witness :
    validateCard (mkCardJson ([jsonTitle] ++ jsonParagraph :: [])) = none :=
  C7_unrecognized_kind_rejected.2.1 jsonParagraph [jsonTitle] [] (by decide)

/-- C8: any document produced by a successful validation, serialized back
to JSON and validated again, validates successfully to the identical
document. -/
theorem C8_validate_serialize_roundtrip :
    ∀ (raw : Json) (d : Node), validateCard raw = some d →
      validateCard (Node.toJson d) = some d := by
  intro raw d h
  rw [validateCard.eq_def] at h
  split at h
  case _ fields =>
    split at h
    case _ k hk =>
      split at h
      case _ hkc =>
        subst hkc
        rw [validateNode_obj_card true hk] at h
        obtain ⟨cs, rfl, hns⟩ := validateCardFields_shape h
        exact validateCard_toJson_card hns
      case _ => exact Option.noConfusion h
    case _ => exact Option.noConfusion h
  case _ => exact Option.noConfusion h

/-- Witness for C8 at a concrete validated card. -/
theorem C8_validate_serialize_roundtrip_witness :
    validateCard (Node.toJson (.card [.title "x"])) = some (.card [.title "x"]) :=
  C8_validate_serialize_roundtrip (mkCardJson [jsonTitle]) (.card [.title "x"])
    (by simp [mkCardJson, jsonTitle, validateCard, validateNode,
      validateCardFields, validateNodeList, validateTitleFields, checkKeys,
      Json.lookup])

/-- C9 (counterexample): the spec claims `generate_card` surfaces a
structured error value, not a raw exception string.  The code instead
raises `ValueError` whose payload is the single free-text string
`"Model returned invalid card JSON: "` followed by the stringified pydantic
error, and the HTTP endpoint forwards it as status 500 with that string as
`detail`. -/
theorem C9_counterexample_raw_string_error :
    generate_card "pydantic error text" jsonTextTop =
      .error (.valueError "Model returned invalid card JSON: pydantic error text") ∧
    generate_card_endpoint "pydantic error text" jsonTextTop =
      .error (500, "Model returned invalid card JSON: pydantic error text") := by
  have hv : validateCard jsonTextTop = none := by
    simp [jsonTextTop, validateCard, Json.lookup]
  constructor
  · simp [generate_card, hv]
  · simp [generate_card_endpoint, generate_card, hv]

/-- C9 (amended): on every validation failure, `generate_card` surfaces a
`ValueError` carrying the free-text message
`"Model returned invalid card JSON: " ++ msg` (where `msg` is the
stringified pydantic error), and the endpoint maps it to status 500 with
that same string as detail. -/
theorem C9_amended_error_is_wrapped_string :
    ∀ (msg : String) (raw : Json), validateCard raw = none →
      generate_card msg raw =
        .error (.valueError ("Model returned invalid card JSON: " ++ msg)) ∧
      generate_card_endpoint msg raw =
        .error (500, "Model returned invalid card JSON: " ++ msg) := by
  intro msg raw h
  constructor
  · simp [generate_card, h]
  · simp [generate_card_endpoint, generate_card, h]

/-- Witness for the amended C9 at `{"kind":"text","text":"x"}`. -/
theorem C9_amended_error_is_wrapped_string_witness :
    generate_card "boom" jsonTextTop =
      .error (.valueError ("Model returned invalid card JSON: " ++ "boom")) ∧
    generate_card_endpoint "boom" jsonTextTop =
      .error (500, "Model returned invalid card JSON: " ++ "boom") :=
  C9_amended_error_is_wrapped_string "boom" jsonTextTop
    (by simp [jsonTextTop, validateCard, Json.lookup])

/-- A card whose panel contains a nested card which in turn contains a
`resizableLayout` node. -/
def jsonCardInPanel : Json :=
  mkCardJson [.obj [("kind", .str "resizableLayout"),
    ("direction", .str "horizontal"),
    ("panels", .arr [.obj [("children",
      .arr [mkCardJson [jsonInnerLayout]])]])]]

/-- C10: the panel exclusion of layout nodes is not transitive: a panel may
contain a card, and that card's children may contain a `resizableLayout`;
the whole input validates successfully. -/
theorem C10_layout_nested_through_card_in_panel :
    validateCard jsonCardInPanel =
      some (.card [.resizableLayout .horizontal
        [.mk none none [.card [.resizableLayout .vertical []]]]]) := by
  simp [jsonCardInPanel, jsonInnerLayout, mkCardJson, validateCard,
    validateNode, validateCardFields, validateLayoutFields, validateNodeList,
    validatePanelList, validatePanel, validateDirection, validateOptFloat,
    checkKeys, Json.lookup]

end AdaptiveCard
